import Mathlib

/-!
Verification development for the shadee-writer research pipeline.

Shallow embedding of the core of `src/utils/gemini_helper.py`
(`verify_article_relevance`, `refine_search_query`, `perform_web_research`)
and of the keyword-cache pipeline in `src/utils/trend_fetcher.py` /
`src/utils/g_sheets.py` (`read_keyword_cache`, `get_trending_keywords`).

External collaborators (Google search, the scraper, the Gemini model
endpoint, the spreadsheet contents) are modelled as scripted environments;
all control flow, string handling and constants are translated from the
Python source. UI logging (Streamlit containers, progress bars, toasts)
has no effect on the returned data and is not modelled.
-/

namespace ShadeeWriter

set_option maxRecDepth 100000

/-- Substring test on character lists: `needle` occurs contiguously in `hay`. -/
def listInfixOf (needle : List Char) : List Char → Bool
  | [] => needle.isEmpty
  | c :: rest => needle.isPrefixOf (c :: rest) || listInfixOf needle rest

/-- Python `needle in hay` substring test on strings. -/
def strContains (hay needle : String) : Bool :=
  listInfixOf needle.data hay.data

/-- ASCII whitespace, the characters matched by Python's `\s` and stripped
by `str.strip()` for the ASCII range (the strings in this pipeline are
ASCII-delimited templates). -/
def isSpaceChar (c : Char) : Bool :=
  c == ' ' || c == '\t' || c == '\n' || c == '\r' || c == '\x0b' || c == '\x0c'

/-- Python `str.strip()` on a character list. -/
def stripChars (l : List Char) : List Char :=
  ((l.dropWhile isSpaceChar).reverse.dropWhile isSpaceChar).reverse

/-- Python `str.strip()`. -/
def pyStrip (s : String) : String :=
  String.mk (stripChars s.data)

/-- Python `str.strip('"')`: strip double quotes from both ends. -/
def stripQuotes (s : String) : String :=
  String.mk ((((s.data.dropWhile (· == '"')).reverse.dropWhile (· == '"'))).reverse)

/-- Python `s.lower()` (ASCII case fold, which is all the domain strings
need). -/
def pyLower (s : String) : String :=
  String.mk (s.data.map Char.toLower)

/-- Python `s[:n]` prefix truncation by character count. -/
def strTake (s : String) (n : Nat) : String :=
  String.mk (s.data.take n)

/-- Split a character list at every character satisfying `p`, keeping
empty pieces, as Python `s.split(',')` does. -/
def splitCharsAux (p : Char → Bool) : List Char → List Char → List (List Char)
  | [], acc => [acc.reverse]
  | c :: rest, acc =>
    if p c then acc.reverse :: splitCharsAux p rest []
    else splitCharsAux p rest (c :: acc)

/-- Python `s.split(sep)` for a one-character separator. -/
def strSplit (p : Char → Bool) (s : String) : List String :=
  (splitCharsAux p s.data []).map String.mk

/-- Case-insensitive literal match: if `pat` matches a prefix of `s` up to
ASCII case, return the remainder of `s`. Models the `re.IGNORECASE` literal
part of the score/rationale patterns. -/
def ciPrefix : List Char → List Char → Option (List Char)
  | [], rest => some rest
  | _ :: _, [] => none
  | p :: ps, c :: cs => if p.toLower == c.toLower then ciPrefix ps cs else none

/-- Digits to a number, `int()` on a nonempty digit run. -/
def digitsToNat (l : List Char) : Nat :=
  l.foldl (fun n c => n * 10 + (c.toNat - '0'.toNat)) 0

/-- Model of `re.search(r"SCORE:\s*(\d+)", text, re.IGNORECASE)`: scan for the
leftmost position where the literal `SCORE:` (case-insensitive) is followed
by optional whitespace and at least one digit; return the captured number. -/
def searchScore : List Char → Option Nat
  | [] => none
  | c :: rest =>
    match ciPrefix "SCORE:".data (c :: rest) with
    | some afterLit =>
      let digits := (afterLit.dropWhile isSpaceChar).takeWhile Char.isDigit
      if digits.isEmpty then searchScore rest else some (digitsToNat digits)
    | none => searchScore rest

/-- Model of `re.search(r"RATIONALE:\s*(.*)", text, re.IGNORECASE)`: scan for the
leftmost `RATIONALE:` literal; the group is the rest of that line after the
greedy whitespace run (`.` does not cross a newline). -/
def searchRationale : List Char → Option (List Char)
  | [] => none
  | c :: rest =>
    match ciPrefix "RATIONALE:".data (c :: rest) with
    | some afterLit =>
      some ((afterLit.dropWhile isSpaceChar).takeWhile (fun ch => ch != '\n'))
    | none => searchRationale rest

/-- Outcome of one Gemini `generate_content` call as seen by the caller:
the call raises, the response is safety-blocked (no candidates), or it
returns text. -/
inductive LMResult where
  | err (msg : String)
  | blocked
  | ok (text : String)
deriving Repr, DecidableEq

/-- Result of `verify_article_relevance` plus whether the language-model
endpoint was invoked (the code reaches `model.generate_content`). -/
structure VerifyOut where
  score : Nat
  rationale : String
  modelCalled : Bool
deriving Repr, DecidableEq

/-- Embedding of `verify_article_relevance(content, topic)` from
`src/utils/gemini_helper.py` lines 40-86. The model call is the scripted
`oracle`; the prompt only packages `content`/`topic`, so it is not
re-modelled. `min(max(score, 0), 5)` clamps the parsed score. -/
def verify_article_relevance (oracle : LMResult) (content topic : String) : VerifyOut :=
  if content = "" || content.length < 100 then
    ⟨0, "Content too short or empty.", false⟩
  else
    match oracle with
    | .err msg =>
      ⟨5, "Verification error (" ++ strTake msg 100 ++ "), assuming moderate relevance.", true⟩
    | .blocked => ⟨5, "Verification blocked by safety filters.", true⟩
    | .ok t =>
      let text := pyStrip t
      let score := (searchScore text.data).getD 0
      let rationale :=
        match searchRationale text.data with
        | some r => String.mk (stripChars r)
        | none => "No rationale provided."
      ⟨min (max score 0) 5, rationale, true⟩

/-- Embedding of `refine_search_query(topic, tried_queries, current_sources_count)`
from lines 89-108: the model reply (scripted: `none` = the call raised) is
stripped of whitespace and surrounding double quotes; any failure falls
back to the templated query. -/
def refine_search_query (reply : Option String) (topic : String) : String :=
  match reply with
  | some t => stripQuotes (pyStrip t)
  | none => topic ++ " deep dive research"

/-- The `ANTI_SCRAPE_DOMAINS` constant from lines 23-27. -/
def ANTI_SCRAPE_DOMAINS : List String :=
  ["facebook.com", "reddit.com", "instagram.com", "twitter.com", "x.com",
   "linkedin.com", "tiktok.com", "ncbi.nlm.nih.gov", "jamanetwork.com",
   "nih.gov", "who.int", "vibe.shadee.care"]

/-- Drop everything up to and including the first `://`. -/
def dropToSchemeSep : List Char → Option (List Char)
  | [] => none
  | ':' :: '/' :: '/' :: rest => some rest
  | _ :: rest => dropToSchemeSep rest

/-- Model of `urlparse(url).netloc`: the authority component, i.e. what follows
`//` up to the next `/`, `?` or `#` (empty when the URL has no `//`). -/
def netloc (url : String) : String :=
  let rest :=
    match dropToSchemeSep url.data with
    | some r => r
    | none =>
      match url.data with
      | '/' :: '/' :: r => r
      | _ => []
  String.mk (rest.takeWhile (fun c => c != '/' && c != '?' && c != '#'))

/-- Lines 222-223: `domain = urlparse(url).netloc.lower()` and
`any(blocked in domain for blocked in ANTI_SCRAPE_DOMAINS)`. -/
def isExcludedDomain (url : String) : Bool :=
  let domain := pyLower (netloc url)
  ANTI_SCRAPE_DOMAINS.any (fun blocked => strContains domain blocked)

/-- Lines 197-203: map the audience tag to a query modifier by substring
match; unmatched audiences keep the empty modifier. -/
def audienceModifier (audience : String) : String :=
  if strContains audience "Youth" || strContains audience "13-18" then
    " Gen-Z teens young people"
  else if strContains audience "Young Adults" || strContains audience "19-30" then
    " millennials young adults"
  else ""

/-- Scripted collaborators of `perform_web_research`: the search provider
(`google_search`, empty list on failure), the content extractor
(`scrape_url`, `none` on failure), the scoring model reply for a given
content/topic pair, the refiner model reply (`none` = raised), and the
summarizer model reply (`none` = raised). -/
structure Env where
  search : String → List String
  scrape : String → Option String
  scoreReply : String → String → LMResult
  refineReply : String → List String → Nat → Option String
  synthReply : String → Option String

/-- One accepted document: element of `high_quality_sources`. -/
structure Src where
  url : String
  content : String
  score : Nat
deriving Repr, DecidableEq

/-- The per-URL scan state mutated inside the `for url in found_urls`
loop: `seen_urls` (insertion-ordered, used as a set), the accepted
`high_quality_sources`, and the audit trail of URLs passed to
`scrape_url`. -/
structure ScanState where
  seen : List String
  accepted : List Src
  scraped : List String
deriving Repr, DecidableEq

/-- Full loop state of `perform_web_research`. -/
structure RState where
  scan : ScanState
  tried : List String
  attempts : Nat
  query : String
  refineCalls : Nat
deriving Repr, DecidableEq

/-- The constant `max_attempts = 5` (line 194). -/
def max_attempts : Nat := 5

/-- The constant `target_count = 7` (line 195). -/
def target_count : Nat := 7

/-- The body of `for url in found_urls` (lines 215-246), for one URL.
Returns the updated scan state and whether the `break` at line 229 fired
(target met). Order of checks follows the source: dedup, add to
`seen_urls`, anti-scrape skip, target check, scrape, score, accept.
Python's `if content:` treats both `None` and `""` as unscrapable. -/
def processUrl (env : Env) (topic : String) (sc : ScanState) (url : String) :
    ScanState × Bool :=
  if sc.seen.contains url then (sc, false)
  else
    let sc := { sc with seen := sc.seen ++ [url] }
    if isExcludedDomain url then (sc, false)
    else if target_count ≤ sc.accepted.length then (sc, true)
    else
      let sc := { sc with scraped := sc.scraped ++ [url] }
      match env.scrape url with
      | none => (sc, false)
      | some content =>
        if content = "" then (sc, false)
        else
          let v := verify_article_relevance (env.scoreReply content topic) content topic
          if 3 ≤ v.score then
            ({ sc with accepted := sc.accepted ++ [⟨url, content, v.score⟩] }, false)
          else (sc, false)

/-- The whole `for url in found_urls` loop; the `break` stops the scan of
the remaining URLs of the batch. -/
def processUrls (env : Env) (topic : String) (sc : ScanState) :
    List String → ScanState
  | [] => sc
  | url :: rest =>
    let r := processUrl env topic sc url
    if r.2 then r.1 else processUrls env topic r.1 rest

/-- One iteration of the `while` loop before the refine step (lines
206-246): increment `attempts`, append the query to `tried_queries`,
search, and scan the result URLs (an empty result list only logs a
warning). -/
def runBatch (env : Env) (topic : String) (s : RState) : RState :=
  let s := { s with attempts := s.attempts + 1, tried := s.tried ++ [s.query] }
  { s with scan := processUrls env topic s.scan (env.search s.query) }

/-- Lines 249-251: if more sources are needed and attempts remain, obtain
the next query from the Query Refiner. -/
def maybeRefine (env : Env) (topic : String) (s : RState) : RState :=
  if s.scan.accepted.length < target_count ∧ s.attempts < max_attempts then
    { s with
      query := refine_search_query (env.refineReply topic s.tried s.scan.accepted.length) topic,
      refineCalls := s.refineCalls + 1 }
  else s

/-- The `while len(high_quality_sources) < target_count and attempts <
max_attempts` loop, fueled. Each iteration increments `attempts`, so
`max_attempts - attempts` fuel never runs out before the guard fails:
at fuel 0 we have `attempts ≥ max_attempts` and the guard is false too. -/
def loopAux (env : Env) (topic : String) : Nat → RState → RState
  | 0, s => s
  | Nat.succ n, s =>
    if s.scan.accepted.length < target_count ∧ s.attempts < max_attempts then
      loopAux env topic n (maybeRefine env topic (runBatch env topic s))
    else s

/-- The research attempt loop from any state. -/
def loop (env : Env) (topic : String) (s : RState) : RState :=
  loopAux env topic (max_attempts - s.attempts) s

/-- Result of `perform_web_research`, plus the final loop state and
whether the summarization model was invoked (the `logs` field is pure UI
history and is not modelled). -/
structure ROut where
  summary : String
  sources : List String
  synthCalled : Bool
  finalState : RState
deriving Repr, DecidableEq

/-- Sentinel summary returned when no source was accepted (line 257). -/
def NO_RESEARCH_SUMMARY : String :=
  "Live web research was unavailable. Article will be generated using AI's built-in knowledge."

/-- The session state at entry of the `while` loop (lines 159-203): empty
session, query seeded with the audience modifier. -/
def initState (topic audience : String) : RState :=
  { scan := ⟨[], [], []⟩, tried := [], attempts := 0,
    query := topic ++ audienceModifier audience, refineCalls := 0 }

/-- Embedding of `perform_web_research(topic, audience)` from lines 143-285: seed the
query with the audience modifier, run the attempt loop, and either return
the sentinel with every seen URL (no Synthesizer call) or synthesize the
accepted sources, whose combined tagged text is truncated to 120000
characters. -/
def perform_web_research (env : Env) (topic audience : String) : ROut :=
  let s := loop env topic (initState topic audience)
  if s.scan.accepted = [] then
    { summary := NO_RESEARCH_SUMMARY, sources := s.scan.seen,
      synthCalled := false, finalState := s }
  else
    let combined := String.intercalate "\n\n"
      (s.scan.accepted.map (fun src =>
        "--- SOURCE: " ++ src.url ++ " (Score: " ++ toString src.score ++ "/5) ---\n"
          ++ src.content))
    match env.synthReply (strTake combined 120000) with
    | some summary =>
      { summary := summary, sources := s.scan.accepted.map (fun src => src.url),
        synthCalled := true, finalState := s }
    | none =>
      { summary := "Error during summarization.",
        sources := s.scan.accepted.map (fun src => src.url),
        synthCalled := true, finalState := s }

/-- One record of the `Keyword Cache` worksheet: the `Cache_Date` and
`Keywords` cells of a row. -/
structure CacheRow where
  cacheDate : String
  keywords : String
deriving Repr, DecidableEq

/-- The `for row in reversed(records)` scan of `read_keyword_cache`
(lines 97-104 of `src/utils/g_sheets.py`), on the already-reversed list:
return the `Keywords` cell of the first row whose `Cache_Date` equals
today and whose `Keywords` cell is non-empty (Python truthiness); keep
scanning otherwise. -/
def readCacheScan (today : String) : List CacheRow → Option String
  | [] => none
  | r :: rest =>
    if r.cacheDate = today && r.keywords != "" then some r.keywords
    else readCacheScan today rest

/-- Embedding of `read_keyword_cache()` from `src/utils/g_sheets.py` lines 83-107,
over the worksheet records and today's date (fixed Asia/Singapore
timezone, passed in as a string). -/
def read_keyword_cache (records : List CacheRow) (today : String) : Option String :=
  readCacheScan today records.reverse

/-- The constant `MAX_CHARS_FOR_EXTRACTION = 200000` (`src/utils/trend_fetcher.py`
line 29). -/
def MAX_CHARS_FOR_EXTRACTION : Nat := 200000

/-- Model of `[kw.strip() for kw in s.split(',') if kw.strip()]`: split at commas,
strip each piece, drop the empty ones. Used both on the cached string
(trend_fetcher line 68) and on the model reply (line 59). -/
def splitCommaTrim (s : String) : List String :=
  ((strSplit (fun c => c == ',') s).map pyStrip).filter (fun kw => kw != "")

/-- Embedding of `extract_keywords_from_text(text_block)` from `src/utils/
trend_fetcher.py` lines 31-62: empty input short-circuits to `[]`; a
missing API key or a model error (scripted as `none`) yields `[]`;
otherwise the stripped reply is comma-split into keywords. -/
def extract_keywords_from_text (reply : Option String) (text_block : String) :
    List String :=
  if text_block = "" then []
  else
    match reply with
    | none => []
    | some t => splitCommaTrim (pyStrip t)

/-- Lexicographic order on character lists by code point, the order
Python uses to compare strings. -/
def charListLe : List Char → List Char → Bool
  | [], _ => true
  | _ :: _, [] => false
  | a :: as, b :: bs =>
    if a.toNat < b.toNat then true
    else if b.toNat < a.toNat then false
    else charListLe as bs

/-- Python string comparison `a <= b`. -/
def strLe (a b : String) : Bool :=
  charListLe a.data b.data

/-- The order `pySorted` sorts by: `strLe` as a relation. -/
def strLeRel (a b : String) : Prop :=
  strLe a b = true

instance : DecidableRel strLeRel :=
  fun a b => instDecidableEqBool (strLe a b) true

/-- Python `sorted` on strings: a stable sort by the lexicographic
string order. -/
def pySorted (l : List String) : List String :=
  l.insertionSort strLeRel

/-- Scripted collaborators and external state of `get_trending_keywords`:
the cache worksheet records, today's date string, the qualifying text
rows collected by the spreadsheet scan (the per-sheet pandas filtering of
external spreadsheet data, lines 94-157), and the extraction model reply
(`none` = failure). -/
structure TrendEnv where
  cacheRecords : List CacheRow
  today : String
  rawTexts : List String
  extractReply : Option String

/-- Result of `get_trending_keywords` plus an audit of the side effects:
whether the raw-data spreadsheet scan ran, whether the extraction model
was reached with a non-empty text block, and the comma-joined keywords
string appended to the cache by `write_keyword_cache` (if any). -/
structure TrendOut where
  keywords : List String
  rawFetched : Bool
  modelCalled : Bool
  cacheWritten : Option String
deriving Repr, DecidableEq

/-- Embedding of `get_trending_keywords()` from `src/utils/trend_fetcher.py` lines
64-172: on a cache hit return the split cached string (no raw fetch, no
model call); on a miss scan the sheets, join the collected text with the
record delimiter, truncate, extract keywords, persist them via
`write_keyword_cache` (which joins with `", "`, `src/utils/g_sheets.py`
line 119) when non-empty, and return the sorted list. -/
def get_trending_keywords (env : TrendEnv) : TrendOut :=
  match read_keyword_cache env.cacheRecords env.today with
  | some cached =>
    { keywords := splitCommaTrim cached, rawFetched := false,
      modelCalled := false, cacheWritten := none }
  | none =>
    if env.rawTexts = [] then
      { keywords := [], rawFetched := true, modelCalled := false,
        cacheWritten := none }
    else
      let combined := String.intercalate "\n\n---NEW POST---\n\n" env.rawTexts
      let truncated := strTake combined MAX_CHARS_FOR_EXTRACTION
      let final_keywords := extract_keywords_from_text env.extractReply truncated
      { keywords := pySorted final_keywords, rawFetched := true,
        modelCalled := truncated != "",
        cacheWritten :=
          if final_keywords.isEmpty then none
          else some (String.intercalate ", " final_keywords) }

instance : IsTotal String strLeRel := by
  constructor
  intro a b
  show charListLe a.data b.data = true ∨ charListLe b.data a.data = true
  generalize a.data = as
  generalize b.data = bs
  induction as generalizing bs with
  | nil => left; rfl
  | cons x xs ih =>
    cases bs with
    | nil => right; rfl
    | cons y ys =>
      rcases Nat.lt_trichotomy x.toNat y.toNat with h | h | h
      · left; simp [charListLe, h]
      · rcases ih ys with h2 | h2
        · left; simp [charListLe, h, h2]
        · right; simp [charListLe, h, h2]
      · right; simp [charListLe, h]

instance : IsTrans String strLeRel := by
  constructor
  intro a b c
  show charListLe a.data b.data = true → charListLe b.data c.data = true →
    charListLe a.data c.data = true
  generalize a.data = as
  generalize b.data = bs
  generalize c.data = cs
  induction as generalizing bs cs with
  | nil => intro _ _; rfl
  | cons x xs ih =>
    intro hab hbc
    cases bs with
    | nil => simp [charListLe] at hab
    | cons y ys =>
      cases cs with
      | nil => simp [charListLe] at hbc
      | cons z zs =>
        simp only [charListLe] at hab hbc ⊢
        rcases Nat.lt_trichotomy x.toNat y.toNat with hxy | hxy | hxy <;>
          rcases Nat.lt_trichotomy y.toNat z.toNat with hyz | hyz | hyz <;>
            simp_all <;> try omega
        · exact ih ys zs hab hbc

/-! ### Concrete scripted environments used by witnesses and
counterexamples -/

/-- A concrete content string longer than the 100-character minimum. -/
def longContent : String := String.mk (List.replicate 120 'a')

def cEnvC1 : Env :=
  ⟨fun _ => [], fun _ => none, fun _ _ => .blocked, fun _ _ _ => none, fun _ => none⟩

def cEnvC4 : Env :=
  ⟨fun _ => ["https://example.org/a"], fun _ => none, fun _ _ => .blocked,
   fun _ _ _ => none, fun _ => some "S"⟩

def cEnvC9 : Env :=
  ⟨fun _ => [],
   fun u => if u = "https://example.org/a" then some longContent else none,
   fun _ _ => .blocked, fun _ _ _ => none, fun _ => none⟩

def cEnvC5 : Env :=
  { search := fun q =>
      if q = "t" then ["u1", "u2", "u3"]
      else if q = "q2" then ["v1", "v2", "v3", "v4"]
      else []
    scrape := fun _ => some longContent
    scoreReply := fun _ _ => .ok "SCORE: 5\nRATIONALE: good"
    refineReply := fun _ _ _ => some "q2"
    synthReply := fun _ => some "SUMMARY" }

def cEnvC10 : Env :=
  ⟨fun _ => ["https://netflix.com/watch"], fun _ => some longContent,
   fun _ _ => .ok "SCORE: 5\nRATIONALE: g", fun _ _ _ => none, fun _ => none⟩

def cTrendC6 : TrendEnv :=
  ⟨[⟨"2026-10-12", "exam stress, self-care"⟩], "2026-10-12", ["raw row"], some "x"⟩

def cTrendC7 : TrendEnv :=
  ⟨[], "2026-10-12", ["post text"], some "burnout, anxiety, burnout"⟩

/-! ### Structural lemmas about the research loop -/

/-- Scanning one URL never removes accepted sources and appends at most
one, and only when the target was not yet reached. -/
theorem processUrl_accepted_cases (env : Env) (topic : String) (sc : ScanState)
    (url : String) :
    ((processUrl env topic sc url).1).accepted = sc.accepted ∨
      (sc.accepted.length < target_count ∧
        ∃ src, ((processUrl env topic sc url).1).accepted = sc.accepted ++ [src]) := by
  simp only [processUrl]
  split_ifs with hseen hexc hcap
  · exact Or.inl rfl
  · exact Or.inl rfl
  · exact Or.inl rfl
  · cases henv : env.scrape url with
    | none => exact Or.inl rfl
    | some content =>
      dsimp only
      split_ifs with hemp hsc
      · exact Or.inl rfl
      · exact Or.inr ⟨Nat.lt_of_not_le hcap, _, rfl⟩
      · exact Or.inl rfl

/-- The accepted-source bound is preserved by one URL scan. -/
theorem processUrl_accepted_le (env : Env) (topic : String) (sc : ScanState)
    (url : String) (h : sc.accepted.length ≤ target_count) :
    ((processUrl env topic sc url).1).accepted.length ≤ target_count := by
  rcases processUrl_accepted_cases env topic sc url with heq | ⟨hlt, src, heq⟩
  · rw [heq]; exact h
  · rw [heq]; simp only [List.length_append, List.length_cons, List.length_nil]
    omega

/-- The accepted-source bound is preserved by a whole batch scan. -/
theorem processUrls_accepted_le (env : Env) (topic : String) (urls : List String)
    (sc : ScanState) (h : sc.accepted.length ≤ target_count) :
    (processUrls env topic sc urls).accepted.length ≤ target_count := by
  induction urls generalizing sc with
  | nil => exact h
  | cons url rest ih =>
    simp only [processUrls]
    split
    · exact processUrl_accepted_le env topic sc url h
    · exact ih _ (processUrl_accepted_le env topic sc url h)

/-- Running a batch increments the attempt counter by exactly one. -/
theorem runBatch_attempts (env : Env) (topic : String) (s : RState) :
    (runBatch env topic s).attempts = s.attempts + 1 := rfl

/-- Running a batch does not touch the refine counter. -/
theorem runBatch_refineCalls (env : Env) (topic : String) (s : RState) :
    (runBatch env topic s).refineCalls = s.refineCalls := rfl

/-- The refine step never changes the scan state. -/
theorem maybeRefine_scan (env : Env) (topic : String) (s : RState) :
    (maybeRefine env topic s).scan = s.scan := by
  unfold maybeRefine; split <;> rfl

/-- The refine step never changes the attempt counter. -/
theorem maybeRefine_attempts (env : Env) (topic : String) (s : RState) :
    (maybeRefine env topic s).attempts = s.attempts := by
  unfold maybeRefine; split <;> rfl

/-- The attempt counter never decreases across the loop. -/
theorem loopAux_attempts_mono (env : Env) (topic : String) (n : Nat) (s : RState) :
    s.attempts ≤ (loopAux env topic n s).attempts := by
  induction n generalizing s with
  | zero => exact Nat.le_refl _
  | succ n ih =>
    unfold loopAux
    split
    · refine Nat.le_trans ?_ (ih _)
      rw [maybeRefine_attempts, runBatch_attempts]
      exact Nat.le_succ _
    · exact Nat.le_refl _

/-- Loop invariant: the target bound on accepted sources and the
max-attempts bound both hold at every loop state reachable from a state
satisfying them. -/
theorem loopAux_inv (env : Env) (topic : String) (n : Nat) (s : RState)
    (hacc : s.scan.accepted.length ≤ target_count)
    (hatt : s.attempts ≤ max_attempts) :
    (loopAux env topic n s).scan.accepted.length ≤ target_count ∧
      (loopAux env topic n s).attempts ≤ max_attempts := by
  induction n generalizing s with
  | zero => exact ⟨hacc, hatt⟩
  | succ n ih =>
    unfold loopAux
    split
    · rename_i hguard
      refine ih _ ?_ ?_
      · rw [maybeRefine_scan]
        exact processUrls_accepted_le env topic _ _ hacc
      · rw [maybeRefine_attempts, runBatch_attempts]
        exact hguard.2
    · exact ⟨hacc, hatt⟩

/-- The loop is the identity on any state at which either bound has been
reached: it terminates the instant a bound is hit. -/
theorem loop_eq_self (env : Env) (topic : String) (s : RState)
    (h : target_count ≤ s.scan.accepted.length ∨ max_attempts ≤ s.attempts) :
    loop env topic s = s := by
  unfold loop
  cases hn : max_attempts - s.attempts with
  | zero => rfl
  | succ n =>
    unfold loopAux
    split
    · rename_i hguard
      exact absurd hguard (by omega)
    · rfl

/-- The loop is the identity (at any fuel) on a state at which either
bound has been reached. -/
theorem loopAux_eq_self (env : Env) (topic : String) (n : Nat) (s : RState)
    (h : target_count ≤ s.scan.accepted.length ∨ max_attempts ≤ s.attempts) :
    loopAux env topic n s = s := by
  cases n with
  | zero => rfl
  | succ n =>
    unfold loopAux
    split
    · rename_i hguard
      exact absurd hguard (by omega)
    · rfl

/-- One unfolding of the loop when the guard holds. -/
theorem loopAux_succ_true (env : Env) (topic : String) (n : Nat) (s : RState)
    (h : s.scan.accepted.length < target_count ∧ s.attempts < max_attempts) :
    loopAux env topic (n + 1) s
      = loopAux env topic n (maybeRefine env topic (runBatch env topic s)) := by
  simp only [loopAux]
  rw [if_pos h]

/-- The final state of a research call is the loop's output from the
initial session state. -/
theorem research_finalState (env : Env) (topic audience : String) :
    (perform_web_research env topic audience).finalState
      = loop env topic (initState topic audience) := by
  simp only [perform_web_research]
  split
  · rfl
  · split <;> rfl

/-- A URL of an excluded domain leaves the scrape audit trail and the
accepted list unchanged: the skip happens before extraction. -/
theorem processUrl_excluded_unchanged (env : Env) (topic : String) (sc : ScanState)
    (url : String) (h : isExcludedDomain url = true) :
    ((processUrl env topic sc url).1).scraped = sc.scraped ∧
      ((processUrl env topic sc url).1).accepted = sc.accepted := by
  simp only [processUrl, h]
  split_ifs with hseen <;> exact ⟨rfl, rfl⟩

/-- Any member of the scan state after one URL is either an old member or
stems from the processed URL itself. -/
theorem processUrl_mem (env : Env) (topic : String) (sc : ScanState) (url : String) :
    (∀ u, u ∈ ((processUrl env topic sc url).1).scraped → u ∈ sc.scraped ∨ u = url) ∧
      (∀ src, src ∈ ((processUrl env topic sc url).1).accepted →
        src ∈ sc.accepted ∨ src.url = url) := by
  simp only [processUrl]
  split_ifs with hseen hexc hcap
  · exact ⟨fun u hu => Or.inl hu, fun s hs => Or.inl hs⟩
  · exact ⟨fun u hu => Or.inl hu, fun s hs => Or.inl hs⟩
  · exact ⟨fun u hu => Or.inl hu, fun s hs => Or.inl hs⟩
  · cases henv : env.scrape url with
    | none =>
      refine ⟨fun u hu => ?_, fun s hs => Or.inl hs⟩
      rcases List.mem_append.mp hu with h | h
      · exact Or.inl h
      · exact Or.inr (List.mem_singleton.mp h)
    | some content =>
      dsimp only
      split_ifs with hemp hsc
      · refine ⟨fun u hu => ?_, fun s hs => Or.inl hs⟩
        rcases List.mem_append.mp hu with h | h
        · exact Or.inl h
        · exact Or.inr (List.mem_singleton.mp h)
      · refine ⟨fun u hu => ?_, fun s hs => ?_⟩
        · rcases List.mem_append.mp hu with h | h
          · exact Or.inl h
          · exact Or.inr (List.mem_singleton.mp h)
        · rcases List.mem_append.mp hs with h | h
          · exact Or.inl h
          · exact Or.inr (by rw [List.mem_singleton.mp h])
      · refine ⟨fun u hu => ?_, fun s hs => Or.inl hs⟩
        rcases List.mem_append.mp hu with h | h
        · exact Or.inl h
        · exact Or.inr (List.mem_singleton.mp h)

/-- Scanning one URL preserves "an excluded URL `u` was never scraped and
never accepted". -/
theorem processUrl_notTouched (env : Env) (topic : String) (sc : ScanState)
    (url u : String) (hexc : isExcludedDomain u = true)
    (h1 : u ∉ sc.scraped) (h2 : ∀ src ∈ sc.accepted, src.url ≠ u) :
    u ∉ ((processUrl env topic sc url).1).scraped ∧
      ∀ src ∈ ((processUrl env topic sc url).1).accepted, src.url ≠ u := by
  by_cases hu : url = u
  · subst hu
    have hunch := processUrl_excluded_unchanged env topic sc url hexc
    rw [hunch.1, hunch.2]
    exact ⟨h1, h2⟩
  · have hm := processUrl_mem env topic sc url
    constructor
    · intro hin
      rcases hm.1 u hin with hold | heq
      · exact h1 hold
      · exact hu heq.symm
    · intro src hsrc
      rcases hm.2 src hsrc with hold | heq
      · exact h2 src hold
      · rw [heq]; exact fun hc => hu hc

/-- A whole batch scan preserves "an excluded URL was never scraped and
never accepted". -/
theorem processUrls_notTouched (env : Env) (topic : String) (urls : List String)
    (sc : ScanState) (u : String) (hexc : isExcludedDomain u = true)
    (h1 : u ∉ sc.scraped) (h2 : ∀ src ∈ sc.accepted, src.url ≠ u) :
    u ∉ (processUrls env topic sc urls).scraped ∧
      ∀ src ∈ (processUrls env topic sc urls).accepted, src.url ≠ u := by
  induction urls generalizing sc with
  | nil => exact ⟨h1, h2⟩
  | cons url rest ih =>
    simp only [processUrls]
    have hstep := processUrl_notTouched env topic sc url u hexc h1 h2
    split
    · exact hstep
    · exact ih _ hstep.1 hstep.2

/-- The scan state of a batch run. -/
theorem runBatch_scan (env : Env) (topic : String) (s : RState) :
    (runBatch env topic s).scan
      = processUrls env topic s.scan (env.search s.query) := rfl

/-- The whole attempt loop preserves "an excluded URL was never scraped
and never accepted". -/
theorem loopAux_notTouched (env : Env) (topic : String) (n : Nat) (s : RState)
    (u : String) (hexc : isExcludedDomain u = true)
    (h1 : u ∉ s.scan.scraped) (h2 : ∀ src ∈ s.scan.accepted, src.url ≠ u) :
    u ∉ (loopAux env topic n s).scan.scraped ∧
      ∀ src ∈ (loopAux env topic n s).scan.accepted, src.url ≠ u := by
  induction n generalizing s with
  | zero => exact ⟨h1, h2⟩
  | succ n ih =>
    unfold loopAux
    split
    · refine ih _ ?_ ?_
      · rw [maybeRefine_scan, runBatch_scan]
        exact (processUrls_notTouched env topic _ _ u hexc h1 h2).1
      · rw [maybeRefine_scan, runBatch_scan]
        exact (processUrls_notTouched env topic _ _ u hexc h1 h2).2
    · exact ⟨h1, h2⟩

/-! ### Claim theorems -/

/-- C1: in every execution of `perform_web_research`, the number of
accepted sources stays at most the target count (7) and the attempt count
at most the max-attempts constant (5) — in particular in the final state,
so the returned accepted-source list never exceeds `target_count` — and
the attempt loop is the identity (terminates at once) on any state at
which either bound has been reached. -/
theorem C1_research_loop_bounds (env : Env) (topic audience : String) :
    ((perform_web_research env topic audience).finalState.scan.accepted.length ≤ target_count ∧
      (perform_web_research env topic audience).finalState.attempts ≤ max_attempts) ∧
    ∀ s : RState, target_count ≤ s.scan.accepted.length ∨ max_attempts ≤ s.attempts →
      loop env topic s = s := by
  constructor
  · rw [research_finalState]
    exact loopAux_inv env topic _ _ (Nat.zero_le _) (Nat.zero_le _)
  · exact fun s h => loop_eq_self env topic s h

/-- Witness for C1 at a concrete environment and a concrete bound-hit
state. -/
theorem C1_witness :
    (perform_web_research cEnvC1 "stress" "Parents").finalState.scan.accepted.length
        ≤ target_count ∧
      loop cEnvC1 "stress" ⟨⟨[], [], []⟩, [], 5, "q", 0⟩ = ⟨⟨[], [], []⟩, [], 5, "q", 0⟩ :=
  ⟨(C1_research_loop_bounds cEnvC1 "stress" "Parents").1.1,
   (C1_research_loop_bounds cEnvC1 "stress" "Parents").2 _ (Or.inr (by decide))⟩

/-- C4: whenever the attempt loop ends with zero accepted sources,
`perform_web_research` returns the fixed "no research available" sentinel
as summary, together with the session's whole `seen_urls` set as sources,
and never calls the Synthesizer; moreover every scanned non-duplicate URL
(also excluded and unscrapable ones) is added to `seen_urls`. -/
theorem C4_empty_sources (env : Env) (topic audience : String)
    (h : (perform_web_research env topic audience).finalState.scan.accepted = []) :
    (perform_web_research env topic audience).summary = NO_RESEARCH_SUMMARY ∧
    (perform_web_research env topic audience).sources
      = (perform_web_research env topic audience).finalState.scan.seen ∧
    (perform_web_research env topic audience).synthCalled = false ∧
    ∀ sc url, ((processUrl env topic sc url).1).seen
      = if sc.seen.contains url = true then sc.seen else sc.seen ++ [url] := by
  have hloop : (loop env topic (initState topic audience)).scan.accepted = [] := by
    rw [← research_finalState]; exact h
  have e : perform_web_research env topic audience
      = { summary := NO_RESEARCH_SUMMARY,
          sources := (loop env topic (initState topic audience)).scan.seen,
          synthCalled := false,
          finalState := loop env topic (initState topic audience) } := by
    simp only [perform_web_research]
    rw [if_pos hloop]
  refine ⟨by rw [e], by rw [e], by rw [e], ?_⟩
  intro sc url
  simp only [processUrl]
  split_ifs with hseen hexc hcap
  · rfl
  · rfl
  · rfl
  · cases henv : env.scrape url with
    | none => rfl
    | some content =>
      dsimp only
      split_ifs with hemp hsc <;> rfl

/-- Witness for C4: an environment where nothing is scrapeable ends with
the sentinel summary, the seen URLs as sources, and no Synthesizer call. -/
theorem C4_witness :
    (perform_web_research cEnvC4 "t" "aud").summary = NO_RESEARCH_SUMMARY ∧
      (perform_web_research cEnvC4 "t" "aud").synthCalled = false ∧
      (perform_web_research cEnvC4 "t" "aud").sources = ["https://example.org/a"] :=
  ⟨(C4_empty_sources cEnvC4 "t" "aud" (by rfl)).1,
   (C4_empty_sources cEnvC4 "t" "aud" (by rfl)).2.2.1,
   ((C4_empty_sources cEnvC4 "t" "aud" (by rfl)).2.1).trans (by rfl)⟩

/-- C2 counterexample: on a model reply that does not match the
`SCORE:`/`RATIONALE:` template, `verify_article_relevance` returns score
0 — below the acceptance threshold of 3 — refuting the claim that any
parse failure yields a fallback score at or above the threshold. -/
theorem C2_counterexample :
    100 ≤ longContent.length ∧
    (verify_article_relevance (LMResult.ok "The article is fine") longContent "stress").score
      = 0 ∧
    (verify_article_relevance (LMResult.ok "The article is fine") longContent "stress").score
      < 3 :=
  ⟨by decide, rfl, by decide⟩

/-- C2 amended: if the language-model call raises, or its response is
safety-blocked, `verify_article_relevance` returns (without raising) the
fixed fallback score 5 — at or above the acceptance threshold 3 — with an
explanatory rationale; but when the call succeeds and the reply cannot be
parsed against the `SCORE:` template, the score defaults to 0, below the
threshold. -/
theorem C2_amended (content topic msg t : String) (h : 100 ≤ content.length) :
    verify_article_relevance (LMResult.err msg) content topic
        = ⟨5, "Verification error (" ++ strTake msg 100 ++ "), assuming moderate relevance.",
            true⟩ ∧
    3 ≤ (verify_article_relevance (LMResult.err msg) content topic).score ∧
    verify_article_relevance LMResult.blocked content topic
        = ⟨5, "Verification blocked by safety filters.", true⟩ ∧
    (searchScore (pyStrip t).data = none →
      (verify_article_relevance (LMResult.ok t) content topic).score = 0) := by
  have hne : ¬content = "" := by
    intro hc; subst hc; exact absurd h (by decide)
  have hgate : (decide (content = "") || decide (content.length < 100)) = false := by
    simp only [Bool.or_eq_false_iff, decide_eq_false_iff_not]
    exact ⟨hne, by omega⟩
  refine ⟨?_, ?_, ?_, ?_⟩
  · simp only [verify_article_relevance, hgate, Bool.false_eq_true, if_false]
  · simp only [verify_article_relevance, hgate, Bool.false_eq_true, if_false]
    decide
  · simp only [verify_article_relevance, hgate, Bool.false_eq_true, if_false]
  · intro hparse
    simp only [verify_article_relevance, hgate, Bool.false_eq_true, if_false, hparse,
      Option.getD_none]
    decide

/-- Witness for C2: the amended behavior at concrete inputs — a raised
call yields score 5, an unparseable reply yields score 0. -/
theorem C2_witness :
    (verify_article_relevance (LMResult.err "boom") longContent "stress").score = 5 ∧
    (verify_article_relevance (LMResult.ok "unparseable") longContent "stress").score = 0 := by
  have h := C2_amended longContent "stress" "boom" "unparseable" (by decide)
  exact ⟨by rw [h.1], h.2.2.2 (by rfl)⟩

/-- C3 counterexample: the audience string "Parents" does not match the
teen pattern, yet `perform_web_research` maps it to the empty modifier,
not to the non-empty young-adult modifier the claim promises. -/
theorem C3_counterexample :
    strContains "Parents" "Youth" = false ∧
    audienceModifier "Parents" = "" ∧
    audienceModifier "Parents" ≠ " millennials young adults" :=
  ⟨by decide, by decide, by decide⟩

/-- C3 amended: an audience that misses the teen patterns (`"Youth"`,
`"13-18"`) gets the young-adult modifier only when it contains
`"Young Adults"` or `"19-30"`; an audience matching none of the patterns
gets the empty modifier, so the seed query is the bare topic. -/
theorem C3_amended (audience topic : String)
    (h1 : strContains audience "Youth" = false)
    (h2 : strContains audience "13-18" = false) :
    ((strContains audience "Young Adults" = true ∨ strContains audience "19-30" = true) →
      audienceModifier audience = " millennials young adults") ∧
    (strContains audience "Young Adults" = false → strContains audience "19-30" = false →
      audienceModifier audience = "" ∧ topic ++ audienceModifier audience = topic) := by
  constructor
  · intro hya
    simp only [audienceModifier, h1, h2]
    rcases hya with hy | hy <;> simp [hy]
  · intro hy1 hy2
    have hmod : audienceModifier audience = "" := by
      simp [audienceModifier, h1, h2, hy1, hy2]
    refine ⟨hmod, ?_⟩
    rw [hmod]
    cases topic with
    | mk data => show String.mk (data ++ []) = String.mk data
                 rw [List.append_nil]

/-- Witness for C3 at the concrete audience "Parents": empty modifier,
bare-topic seed query. -/
theorem C3_witness :
    audienceModifier "Parents" = "" ∧ "mindfulness" ++ audienceModifier "Parents" = "mindfulness" :=
  (C3_amended "Parents" "mindfulness" (by decide) (by decide)).2 (by decide) (by decide)

/-- C8: content that is empty or shorter than 100 characters is rejected
with score 0 and the "too short or empty" rationale, and the
language-model endpoint is never invoked. -/
theorem C8_short_content (oracle : LMResult) (content topic : String)
    (h : content.length < 100) :
    verify_article_relevance oracle content topic
      = ⟨0, "Content too short or empty.", false⟩ := by
  have hgate : (decide (content = "") || decide (content.length < 100)) = true := by
    simp [h]
  simp only [verify_article_relevance, hgate, if_true]

/-- Witness for C8 at a concrete short content string. -/
theorem C8_witness :
    verify_article_relevance (LMResult.ok "SCORE: 5") "short" "t"
      = ⟨0, "Content too short or empty.", false⟩ :=
  C8_short_content (LMResult.ok "SCORE: 5") "short" "t" (by decide)

/-- C9: a safety-blocked scoring response (no candidates) yields the
maximum score 5 with the "blocked by safety filters" rationale, so a
scrapeable, unseen, non-excluded document whose scoring is blocked is
appended to the session's accepted sources. -/
theorem C9_blocked_accept (env : Env) (sc : ScanState) (url content topic : String)
    (hlen : 100 ≤ content.length)
    (hseen : sc.seen.contains url = false)
    (hexc : isExcludedDomain url = false)
    (hcap : sc.accepted.length < target_count)
    (hscrape : env.scrape url = some content)
    (hscore : env.scoreReply content topic = LMResult.blocked) :
    verify_article_relevance LMResult.blocked content topic
        = ⟨5, "Verification blocked by safety filters.", true⟩ ∧
    ((processUrl env topic sc url).1).accepted
        = sc.accepted ++ [⟨url, content, 5⟩] := by
  have hne : ¬content = "" := by
    intro hc; subst hc; exact absurd hlen (by decide)
  have hgate : (decide (content = "") || decide (content.length < 100)) = false := by
    simp only [Bool.or_eq_false_iff, decide_eq_false_iff_not]
    exact ⟨hne, by omega⟩
  have hver : verify_article_relevance LMResult.blocked content topic
      = ⟨5, "Verification blocked by safety filters.", true⟩ := by
    simp only [verify_article_relevance, hgate, Bool.false_eq_true, if_false]
  refine ⟨hver, ?_⟩
  simp only [processUrl, hseen, Bool.false_eq_true, if_false,
    hexc, hscrape, Nat.not_le.mpr hcap, hscore]
  rw [if_neg hne, hver]
  simp

/-- Witness for C9: a concrete safety-blocked document is accepted with
score 5. -/
theorem C9_witness :
    ((processUrl cEnvC9 "stress" ⟨[], [], []⟩ "https://example.org/a").1).accepted
      = [⟨"https://example.org/a", longContent, 5⟩] :=
  ((C9_blocked_accept cEnvC9 ⟨[], [], []⟩ "https://example.org/a" longContent "stress"
      (by decide) (by rfl) (by decide) (by decide) (by rfl) (by rfl)).2).trans
    (List.nil_append _)

/-- C5 counterexample: a scripted session reaching exactly the target
count of accepted sources on attempt 2 (of max 5) in which the Query
Refiner has been called — refuting "the Query Refiner is never called
during the session": it is the refiner that produced attempt 2's query. -/
theorem C5_counterexample :
    (perform_web_research cEnvC5 "t" "").finalState.attempts = 2 ∧
    (perform_web_research cEnvC5 "t" "").finalState.scan.accepted.length = target_count ∧
    (perform_web_research cEnvC5 "t" "").finalState.refineCalls ≠ 0 :=
  ⟨rfl, rfl, by decide⟩

/-- C5 amended: if attempt 1 leaves the target unmet and attempt 2 (on
the refined query) reaches exactly the target count, the loop stops after
attempt 2 and the Query Refiner is called exactly once during the session
— after attempt 1, to produce attempt 2's query. -/
theorem C5_amended (env : Env) (topic audience : String)
    (h1 : (runBatch env topic (initState topic audience)).scan.accepted.length
            < target_count)
    (h2 : (runBatch env topic (maybeRefine env topic
            (runBatch env topic (initState topic audience)))).scan.accepted.length
            = target_count) :
    (loop env topic (initState topic audience)).attempts = 2 ∧
    (loop env topic (initState topic audience)).refineCalls = 1 ∧
    (perform_web_research env topic audience).finalState.refineCalls = 1 := by
  set s0 := initState topic audience with hs0
  set b1 := runBatch env topic s0 with hb1
  set s1 := maybeRefine env topic b1 with hs1
  set b2 := runBatch env topic s1 with hb2
  have hb1att : b1.attempts = 1 := by rw [hb1, runBatch_attempts]; rfl
  have hs1att : s1.attempts = 1 := by rw [hs1, maybeRefine_attempts]; exact hb1att
  have hb2att : b2.attempts = 2 := by rw [hb2, runBatch_attempts, hs1att]
  have hs1scan : s1.scan = b1.scan := by rw [hs1, maybeRefine_scan]
  have hb1rc : b1.refineCalls = 0 := by rw [hb1, runBatch_refineCalls]; rfl
  have hs1rc : s1.refineCalls = 1 := by
    rw [hs1]
    unfold maybeRefine
    rw [if_pos ⟨h1, by rw [hb1att]; decide⟩]
    show b1.refineCalls + 1 = 1
    rw [hb1rc]
  have hb2rc : b2.refineCalls = 1 := by rw [hb2, runBatch_refineCalls]; exact hs1rc
  have hmr2 : maybeRefine env topic b2 = b2 := by
    have hng : ¬(b2.scan.accepted.length < target_count ∧ b2.attempts < max_attempts) := by
      rintro ⟨hl, _⟩
      rw [h2] at hl
      exact lt_irrefl _ hl
    unfold maybeRefine
    rw [if_neg hng]
  have hloop : loop env topic s0 = b2 := by
    have hfuel : max_attempts - s0.attempts = 5 := rfl
    have g0 : s0.scan.accepted.length < target_count ∧ s0.attempts < max_attempts := by
      have e1 : s0.scan.accepted.length = 0 := rfl
      have e2 : s0.attempts = 0 := rfl
      rw [e1, e2]
      exact ⟨by decide, by decide⟩
    have g1 : s1.scan.accepted.length < target_count ∧ s1.attempts < max_attempts := by
      rw [hs1scan, hs1att]
      exact ⟨h1, by decide⟩
    unfold loop
    rw [hfuel]
    rw [show (5 : Nat) = 4 + 1 from rfl, loopAux_succ_true env topic 4 s0 g0]
    rw [show maybeRefine env topic (runBatch env topic s0) = s1 from rfl]
    rw [show (4 : Nat) = 3 + 1 from rfl, loopAux_succ_true env topic 3 s1 g1]
    rw [show runBatch env topic s1 = b2 from rfl, hmr2]
    exact loopAux_eq_self env topic 3 b2 (Or.inl (le_of_eq h2.symm))
  refine ⟨by rw [hloop, hb2att], by rw [hloop, hb2rc], ?_⟩
  rw [research_finalState]
  rw [show loop env topic (initState topic audience) = loop env topic s0 from rfl]
  rw [hloop, hb2rc]

/-- Witness for C5 at the concrete scripted environment: the refiner is
called exactly once. -/
theorem C5_witness :
    (perform_web_research cEnvC5 "t" "").finalState.refineCalls = 1 :=
  (C5_amended cEnvC5 "t" "" (by decide) (by rfl)).2.2

/-- C10: domain exclusion is a substring match on the lower-cased URL
host — in particular "netflix.com" matches the configured entry "x.com" —
and an excluded URL is skipped before extraction: it is never passed to
the scraper and never appears among the accepted sources. -/
theorem C10_excluded_never_scraped (env : Env) (topic audience url : String)
    (hexc : isExcludedDomain url = true) :
    url ∉ (perform_web_research env topic audience).finalState.scan.scraped ∧
    (∀ src ∈ (perform_web_research env topic audience).finalState.scan.accepted,
      src.url ≠ url) ∧
    isExcludedDomain "https://netflix.com/watch" = true := by
  rw [research_finalState]
  unfold loop
  have h := loopAux_notTouched env topic (max_attempts - (initState topic audience).attempts)
    (initState topic audience) url hexc
    (List.not_mem_nil url)
    (fun src hsrc => absurd hsrc (List.not_mem_nil src))
  exact ⟨h.1, h.2, by decide⟩

/-- Witness for C10: with the search scripted to return only a
netflix.com URL, nothing is ever scraped or accepted. -/
theorem C10_witness :
    "https://netflix.com/watch"
        ∉ (perform_web_research cEnvC10 "t" "a").finalState.scan.scraped ∧
      (perform_web_research cEnvC10 "t" "a").finalState.scan.accepted = [] :=
  ⟨(C10_excluded_never_scraped cEnvC10 "t" "a" "https://netflix.com/watch" (by decide)).1,
   by rfl⟩

/-- C6: when the cache store holds a non-empty entry dated today,
`get_trending_keywords` returns the cached comma-joined string split into
trimmed non-empty keywords, with no raw-data spreadsheet scan, no
language-model call, and no cache write. -/
theorem C6_cache_hit (env : TrendEnv) (s : String)
    (h : read_keyword_cache env.cacheRecords env.today = some s) :
    get_trending_keywords env
      = { keywords := splitCommaTrim s, rawFetched := false,
          modelCalled := false, cacheWritten := none } := by
  unfold get_trending_keywords
  rw [h]

/-- Witness for C6 at a concrete cache state with today's entry. -/
theorem C6_witness :
    get_trending_keywords cTrendC6
      = ⟨["exam stress", "self-care"], false, false, none⟩ :=
  (C6_cache_hit cTrendC6 "exam stress, self-care" (by rfl)).trans (by rfl)

/-- C7 counterexample: on a cache miss where the model reply repeats a
keyword, `get_trending_keywords` returns a list with a duplicate — the
pipeline never deduplicates — refuting the claim that the returned
sequence is deduplicated. -/
theorem C7_counterexample :
    read_keyword_cache cTrendC7.cacheRecords cTrendC7.today = none ∧
    (get_trending_keywords cTrendC7).keywords = ["anxiety", "burnout", "burnout"] ∧
    ¬ (get_trending_keywords cTrendC7).keywords.Nodup :=
  ⟨rfl, rfl, by decide⟩

/-- C7 amended: on a cache-miss run whose extraction yields a non-empty
keyword list, the returned sequence is sorted — but not deduplicated —
and the extracted keywords are persisted (comma-joined, in extraction
order) as a new cache entry before the function returns. -/
theorem C7_amended (env : TrendEnv)
    (hmiss : read_keyword_cache env.cacheRecords env.today = none)
    (hne : ¬env.rawTexts = [])
    (hfk : extract_keywords_from_text env.extractReply
        (strTake (String.intercalate "\n\n---NEW POST---\n\n" env.rawTexts)
          MAX_CHARS_FOR_EXTRACTION) ≠ []) :
    (get_trending_keywords env).keywords
        = pySorted (extract_keywords_from_text env.extractReply
            (strTake (String.intercalate "\n\n---NEW POST---\n\n" env.rawTexts)
              MAX_CHARS_FOR_EXTRACTION)) ∧
    List.Sorted strLeRel (get_trending_keywords env).keywords ∧
    (get_trending_keywords env).cacheWritten
        = some (String.intercalate ", " (extract_keywords_from_text env.extractReply
            (strTake (String.intercalate "\n\n---NEW POST---\n\n" env.rawTexts)
              MAX_CHARS_FOR_EXTRACTION))) := by
  set fk := extract_keywords_from_text env.extractReply
    (strTake (String.intercalate "\n\n---NEW POST---\n\n" env.rawTexts)
      MAX_CHARS_FOR_EXTRACTION) with hfkdef
  have hfkE : fk.isEmpty = false := by
    cases hc : fk with
    | nil => exact absurd hc hfk
    | cons a l => rfl
  have e : get_trending_keywords env
      = { keywords := pySorted fk, rawFetched := true,
          modelCalled := strTake (String.intercalate "\n\n---NEW POST---\n\n" env.rawTexts)
              MAX_CHARS_FOR_EXTRACTION != "",
          cacheWritten := some (String.intercalate ", " fk) } := by
    unfold get_trending_keywords
    rw [hmiss]
    dsimp only
    rw [if_neg hne]
    rw [← hfkdef, hfkE]
    rfl
  rw [e]
  exact ⟨rfl, List.sorted_insertionSort strLeRel fk, rfl⟩

/-- Witness for C7 at the concrete cache-miss environment: sorted output,
unsorted persisted entry. -/
theorem C7_witness :
    (get_trending_keywords cTrendC7).keywords = ["anxiety", "burnout", "burnout"] ∧
      (get_trending_keywords cTrendC7).cacheWritten
        = some "burnout, anxiety, burnout" := by
  have h := C7_amended cTrendC7 (by rfl) (by decide) (by decide)
  exact ⟨h.1.trans (by rfl), h.2.2.trans (by rfl)⟩

end ShadeeWriter
